import Mathlib

/-!
Shallow embedding of the kiro-todo task-tracking core:
the item model (`Todo`), the service operations of
`src/todo-app/src/services/todoService.ts`, the hook-level operations of
`src/todo-app/src/hooks/useTodos.ts` and `useLocalStorage.ts`, and the
presentation sort of the `TodoList` component.

Modelling conventions:
* Runtime JavaScript values that flow through `JSON.parse`/`JSON.stringify`
  are modelled by `JValue`.  The constructor `JValue.date ms` stands for the
  ISO-8601 timestamp string that `Date.prototype.toJSON` produces for the
  millisecond timestamp `ms`; `JValue.str s` stands for every other string.
  This is a quotient of the string type along `Date.parse`: a string parses
  back to a valid `Date` exactly when it is such a timestamp string, so
  `new Date(string)` is `some ms` on `JValue.date ms` and `none`
  (an Invalid Date, i.e. `NaN` time value) on `JValue.str s`.
* A JavaScript `Date` object is `Option Int`: `some ms` a valid date with
  millisecond timestamp `ms`, `none` an Invalid Date.
* `localStorage` slot contents are `Option JValue` (`none` = key absent).
* `String.prototype.trim` is modelled over the whitespace set of Lean's
  `Char.isWhitespace`; JavaScript trims a larger Unicode set, but no claim
  depends on which characters count as whitespace.
* `.length` of a JavaScript string is UTF-16 code units while `String.length`
  counts code points; no claim depends on the difference.
-/

namespace TodoApp

/-- Structured runtime values (results of `JSON.parse`, arguments of
`JSON.stringify`).  See the module docstring for the reading of `date`. -/
inductive JValue where
  | null : JValue
  | bool (b : Bool) : JValue
  | num (n : Int) : JValue
  | str (s : String) : JValue
  | date (ms : Int) : JValue
  | arr (elems : List JValue) : JValue
  | obj (fields : List (String × JValue)) : JValue

/-- JavaScript truthiness of a structured value.  `date` values are
non-empty strings, hence truthy; arrays and objects are always truthy. -/
def jsTruthy : JValue → Bool
  | .null => false
  | .bool b => b
  | .num n => n != 0
  | .str s => s != ""
  | .date _ => true
  | .arr _ => true
  | .obj _ => true

/-- Strict equality `v === s` between a runtime value and a string.
A `date` value is an ISO-8601 timestamp string; no id in the scope of the
claims is such a string, so the comparison is modelled as false there. -/
def jsEqStr : JValue → String → Bool
  | .str s', s => s' == s
  | _, _ => false

/-- Whether an element can appear in an array position of `JSON.parse`
output as a JavaScript array (`typeof v === 'object'` and not `null`
distinguishes objects/arrays from primitives). -/
def JValue.isArr : JValue → Bool
  | .arr _ => true
  | _ => false

/-- The whitespace predicate used by the model of `String.prototype.trim`. -/
def jsWhitespace (c : Char) : Bool := c.isWhitespace

/-- Trim a character list on both ends. -/
def trimList (l : List Char) : List Char :=
  ((l.dropWhile jsWhitespace).reverse.dropWhile jsWhitespace).reverse

/-- Model of `String.prototype.trim`. -/
def jsTrim (s : String) : String := ⟨trimList s.data⟩

/-- Predicate: `s` contains at least one non-whitespace character: `s` is non-empty
and not whitespace-only. -/
def hasNonWS (s : String) : Bool := s.data.any (fun c => !jsWhitespace c)

/-- The `Todo` record of `src/todo-app/src/types/todo.ts`.  `id` and
`title` are declared as `string` in TypeScript, but values loaded from
storage are used unchecked at runtime, so the model keeps them as raw
`JValue`s; in every state produced by `createTodo` they are `JValue.str`. -/
structure Todo where
  id : JValue
  title : JValue
  completed : Bool
  createdAt : Option Int

/-- The type `TodoUpdate = Partial<Omit<Todo, 'id' | 'createdAt'>>`: optional new
`title` and `completed` fields. -/
structure TodoUpdate where
  title : Option String := none
  completed : Option Bool := none

namespace TodoService

/-- Model of `TodoService.createTodo` (todoService.ts:15-22): fresh id, trimmed
title, `completed := false`, `createdAt := now`.  The id source and the
clock are passed explicitly. -/
def createTodo (title : String) (newId : String) (now : Int) : Todo :=
  { id := .str newId
    title := .str (jsTrim title)
    completed := false
    createdAt := some now }

/-- Serialization of a `createdAt` field by `JSON.stringify`:
`Date.prototype.toJSON` yields the ISO-8601 timestamp string for a valid
date and `null` for an Invalid Date (non-finite time value). -/
def serializeDate : Option Int → JValue
  | some ms => .date ms
  | none => .null

/-- Serialization of one todo by `JSON.stringify`. -/
def serializeTodo (t : Todo) : JValue :=
  .obj [("id", t.id), ("title", t.title),
        ("completed", .bool t.completed), ("createdAt", serializeDate t.createdAt)]

/-- The value `TodoService.saveTodos` writes to the `todos` slot:
`JSON.stringify(todos)` (todoService.ts:35). -/
def serializeTodos (todos : List Todo) : JValue :=
  .arr (todos.map serializeTodo)

/-- First field of a parsed object with the given key, as JavaScript
property lookup on `JSON.parse` output. -/
def lookupField (fields : List (String × JValue)) (k : String) : Option JValue :=
  match fields with
  | [] => none
  | (k', v) :: rest => if k' == k then some v else lookupField rest k

/-- Model of `new Date(v)` for the values reachable in `loadTodos`: an ISO-8601
timestamp string recovers its millisecond value, any other non-empty
string gives an Invalid Date, a number is taken as a millisecond
timestamp, a boolean coerces to 0/1.  (Arrays and objects coerce through
their string form in JavaScript; they are modelled as Invalid Date, and no
claim exercises them.) -/
def jsNewDate : JValue → Option Int
  | .date ms => some ms
  | .str _ => none
  | .num n => some n
  | .bool b => some (if b then 1 else 0)
  | .null => some 0
  | .arr _ => none
  | .obj _ => none

/-- The per-element body of `loadTodos` (todoService.ts:73-92): presence
check of `id`/`title`/`completed`, truthiness check of `id` and `title`,
`typeof completed === 'boolean'` check, then
`createdAt := new Date(todoObj.createdAt || Date.now())`.
`none` models the element being mapped to `null` and filtered out. -/
def parseTodoElem (v : JValue) (now : Int) : Option Todo :=
  match v with
  | .obj fields =>
    match lookupField fields "id", lookupField fields "title",
          lookupField fields "completed" with
    | some idv, some titlev, some cv =>
      if jsTruthy idv && jsTruthy titlev then
        match cv with
        | .bool c =>
          let rawDate := (lookupField fields "createdAt").getD .null
          some { id := idv, title := titlev, completed := c
                 createdAt := if jsTruthy rawDate then jsNewDate rawDate else some now }
        | _ => none
      else none
    | _, _, _ => none
  | _ => none

/-- Model of `TodoService.loadTodos` (todoService.ts:52-101) on a slot content:
missing slot or non-array value yields `[]`; an array is mapped
per-element and the rejected elements are filtered out. -/
def loadTodos (stored : Option JValue) (now : Int) : List Todo :=
  match stored with
  | none => []
  | some v =>
    match v with
    | .arr elems => elems.filterMap (fun e => parseTodoElem e now)
    | _ => []

/-- Outcome of the backing store's write attempt, as seen by the
`try`/`catch` around `localStorage.setItem`. -/
inductive WriteOutcome where
  | ok
  | quotaExceeded
  | otherError (msg : String)

/-- Error message thrown by `saveTodos` on `QuotaExceededError`. -/
def quotaMessage : String := "ストレージ容量が不足しています。古いデータを削除してください。"

/-- Error message thrown by `saveTodos` on any other write failure. -/
def genericSaveMessage : String := "データの保存に失敗しました"

/-- Model of `TodoService.saveTodos` (todoService.ts:27-46): when `localStorage`
is unavailable it logs a warning and returns normally; otherwise a
quota rejection throws the quota message and any other failure throws
the generic message. -/
def saveTodos (storageAvailable : Bool) (w : WriteOutcome) (_todos : List Todo) :
    Except String Unit :=
  if !storageAvailable then .ok ()
  else
    match w with
    | .ok => .ok ()
    | .quotaExceeded => .error quotaMessage
    | .otherError _ => .error genericSaveMessage

/-- Model of `TodoService.updateTodo` (todoService.ts:110-122): map over the whole
list; on an id match, spread the update over the item and override
`title` with `updates.title ? updates.title.trim() : todo.title`
(an empty-string `title` is falsy, so the old title is kept). -/
def updateTodo (todos : List Todo) (id : String) (updates : TodoUpdate) : List Todo :=
  todos.map (fun todo =>
    if jsEqStr todo.id id then
      { todo with
        completed := updates.completed.getD todo.completed
        title :=
          match updates.title with
          | some s => if s ≠ "" then .str (jsTrim s) else todo.title
          | none => todo.title }
    else todo)

/-- Model of `TodoService.deleteTodo` (todoService.ts:130-132):
`todos.filter(todo => todo.id !== id)`. -/
def deleteTodo (todos : List Todo) (id : String) : List Todo :=
  todos.filter (fun todo => !jsEqStr todo.id id)

/-- Model of `TodoService.toggleComplete` (todoService.ts:140-150): map over the
whole list, flipping `completed` on every id match. -/
def toggleComplete (todos : List Todo) (id : String) : List Todo :=
  todos.map (fun todo =>
    if jsEqStr todo.id id then { todo with completed := !todo.completed } else todo)

/-- Result record of `validateTodoTitle`. -/
structure ValidationResult where
  isValid : Bool
  error : Option String := none

/-- Model of `TodoService.validateTodoTitle` (todoService.ts:171-186): the empty
string is falsy and rejected; then the trimmed title must have length in
`[1, 500]`. -/
def validateTodoTitle (title : String) : ValidationResult :=
  if title == "" then { isValid := false, error := some "タイトルは必須です" }
  else
    let trimmedTitle := jsTrim title
    if trimmedTitle.length == 0 then
      { isValid := false, error := some "タイトルは空にできません" }
    else if 500 < trimmedTitle.length then
      { isValid := false, error := some "タイトルは500文字以内で入力してください" }
    else { isValid := true }

end TodoService

namespace UseLocalStorage

/-- Result of one `setValue` call of `useLocalStorage` (useLocalStorage.ts:54-84):
the new in-memory state, whether the durable write happened, and the hook's
error state after the call. -/
structure SetValueResult (α : Type) where
  newState : α
  stored : Bool
  error : Option String

/-- Error state set by `setValue` when `localStorage` is unavailable. -/
def unavailableMessage : String := "データは永続化されません（ローカルストレージ無効）"

/-- Error state set by `setValue` on a non-quota write failure. -/
def setValueGenericMessage (msg : String) : String :=
  "データの保存に失敗しました: " ++ msg

/-- Model of `useLocalStorage.setValue`: `setStoredValue` runs first, so the
in-memory state always becomes the new value; then the durable write is
attempted, setting the error state on unavailability or failure. -/
def setValue {α : Type} (storageAvailable : Bool) (w : TodoService.WriteOutcome)
    (value : α) : SetValueResult α :=
  if !storageAvailable then
    { newState := value, stored := false, error := some unavailableMessage }
  else
    match w with
    | .ok => { newState := value, stored := true, error := none }
    | .quotaExceeded =>
      { newState := value, stored := false, error := some TodoService.quotaMessage }
    | .otherError msg =>
      { newState := value, stored := false, error := some (setValueGenericMessage msg) }

end UseLocalStorage

namespace UseTodos

/-- Model of `useTodos.addTodo` (useTodos.ts:22-52): validate the title; on failure
the thrown error is caught and the state is unchanged; on success append
the freshly created todo. -/
def addTodo (todos : List Todo) (title : String) (newId : String) (now : Int) :
    List Todo :=
  if (TodoService.validateTodoTitle title).isValid then
    todos ++ [TodoService.createTodo title newId now]
  else todos

/-- Model of `useTodos.updateTodo` (useTodos.ts:57-86): when a `title` field is
provided (including the empty string) it is validated first; a validation
failure is caught and leaves the state unchanged; otherwise
`TodoService.updateTodo` produces the new state. -/
def updateTodo (todos : List Todo) (id : String) (updates : TodoUpdate) : List Todo :=
  match updates.title with
  | some t =>
    if (TodoService.validateTodoTitle t).isValid then
      TodoService.updateTodo todos id updates
    else todos
  | none => TodoService.updateTodo todos id updates

/-- Model of `useTodos.deleteTodo` (useTodos.ts:91-112). -/
def deleteTodo (todos : List Todo) (id : String) : List Todo :=
  TodoService.deleteTodo todos id

/-- Model of `useTodos.toggleComplete` (useTodos.ts:117-138). -/
def toggleComplete (todos : List Todo) (id : String) : List Todo :=
  TodoService.toggleComplete todos id

/-- Model of `useTodos.clearAllTodos` (useTodos.ts:143-161). -/
def clearAllTodos (_todos : List Todo) : List Todo := []

/-- Model of `useTodos.clearCompletedTodos` (useTodos.ts:166-187):
`todos.filter(todo => !todo.completed)`. -/
def clearCompletedTodos (todos : List Todo) : List Todo :=
  todos.filter (fun todo => !todo.completed)

end UseTodos

namespace TodoList

/-- The comparator of the `TodoList` component's `sortedTodos`
(active items first; within the same completion status, newer `createdAt`
first).  `getTime()` of an Invalid Date is `NaN`, for which the
comparator's behavior is unspecified; the model substitutes 0 there, and
every theorem about the sort assumes valid dates. -/
def todoCompare (a b : Todo) : Int :=
  if a.completed != b.completed then (if a.completed then 1 else -1)
  else (b.createdAt.getD 0) - (a.createdAt.getD 0)

/-- The boolean "a sorts no later than b" relation induced by
`todoCompare`, as used by the ECMAScript stable `Array.prototype.sort`. -/
def todoLe (a b : Todo) : Bool := decide (todoCompare a b ≤ 0)

/-- Model of `sortedTodos` of the `TodoList` component: `[...todos].sort(cmp)`,
a stable sort of a copy of the collection. -/
def sortedTodos (todos : List Todo) : List Todo :=
  todos.mergeSort todoLe

end TodoList

/-- The states of the `useTodos` hook reachable from the initial empty
collection through the public mutation operations: add, edit-save
(the hook's update), toggle, delete, clear-all and clear-completed. -/
inductive Reachable : List Todo → Prop where
  | empty : Reachable []
  | add (s : List Todo) (title newId : String) (now : Int) :
      Reachable s → Reachable (UseTodos.addTodo s title newId now)
  | update (s : List Todo) (id : String) (u : TodoUpdate) :
      Reachable s → Reachable (UseTodos.updateTodo s id u)
  | toggle (s : List Todo) (id : String) :
      Reachable s → Reachable (UseTodos.toggleComplete s id)
  | delete (s : List Todo) (id : String) :
      Reachable s → Reachable (UseTodos.deleteTodo s id)
  | clearAll (s : List Todo) :
      Reachable s → Reachable (UseTodos.clearAllTodos s)
  | clearCompleted (s : List Todo) :
      Reachable s → Reachable (UseTodos.clearCompletedTodos s)

/-- Well-formedness of an item, as assumed by the round-trip claim:
a non-empty string id, a string title that is non-empty after trimming
and of trimmed length at most 500, and a valid `createdAt` date.
(`completed` is boolean by the type of `Todo.completed`.) -/
def WellFormedTodo (t : Todo) : Prop :=
  (∃ i, t.id = .str i ∧ i ≠ "") ∧
  (∃ ti, t.title = .str ti ∧ jsTrim ti ≠ "" ∧ (jsTrim ti).length ≤ 500) ∧
  (∃ ms, t.createdAt = some ms)

/-- Title invariant carried through the reachability induction: every
item's title is a string containing a non-whitespace character. -/
def TitleInv (s : List Todo) : Prop :=
  ∀ t ∈ s, ∃ str, t.title = .str str ∧ hasNonWS str = true

theorem dropWhile_head_false {α : Type} {p : α → Bool} :
    ∀ {l : List α} {a : α} {as : List α}, l.dropWhile p = a :: as → p a = false
  | [], _, _, h => by simp [List.dropWhile] at h
  | c :: cs, a, as, h => by
    cases hc : p c with
    | true =>
      simp only [List.dropWhile, hc] at h
      exact dropWhile_head_false h
    | false =>
      simp only [List.dropWhile, hc] at h
      injection h with h1 h2
      exact h1 ▸ hc

theorem mem_dropWhile_of_not {α : Type} {p : α → Bool} {c : α} (hc : p c = false) :
    ∀ {l : List α}, c ∈ l → c ∈ l.dropWhile p
  | [], h => absurd h (List.not_mem_nil c)
  | d :: ds, h => by
    cases hd : p d with
    | true =>
      simp only [List.dropWhile, hd]
      rcases List.mem_cons.mp h with rfl | h2
      · rw [hd] at hc; cases hc
      · exact mem_dropWhile_of_not hc h2
    | false =>
      simp only [List.dropWhile, hd]
      exact h

theorem hasNonWS_jsTrim_of_ne {s : String} (h : jsTrim s ≠ "") :
    hasNonWS (jsTrim s) = true := by
  have hm : ((s.data.dropWhile jsWhitespace).reverse.dropWhile jsWhitespace) ≠ [] := by
    intro hl
    apply h
    show (⟨trimList s.data⟩ : String) = ""
    unfold trimList
    rw [hl]
    rfl
  obtain ⟨a, as, ha⟩ := List.exists_cons_of_ne_nil hm
  have hpa : jsWhitespace a = false := dropWhile_head_false ha
  show (trimList s.data).any (fun c => !jsWhitespace c) = true
  rw [List.any_eq_true]
  refine ⟨a, ?_, by simp [hpa]⟩
  unfold trimList
  rw [ha]
  simp

theorem jsTrim_ne_of_hasNonWS {s : String} (h : hasNonWS s = true) : jsTrim s ≠ "" := by
  rw [hasNonWS, List.any_eq_true] at h
  obtain ⟨c, hc, hcw⟩ := h
  have hcf : jsWhitespace c = false := by
    revert hcw; cases jsWhitespace c <;> simp
  have h4 : c ∈ trimList s.data := by
    unfold trimList
    exact List.mem_reverse.mpr
      (mem_dropWhile_of_not hcf (List.mem_reverse.mpr (mem_dropWhile_of_not hcf hc)))
  intro heq
  have hdata : trimList s.data = [] := congrArg String.data heq
  rw [hdata] at h4
  exact absurd h4 (List.not_mem_nil c)

theorem valid_title_props {t : String}
    (h : (TodoService.validateTodoTitle t).isValid = true) :
    t ≠ "" ∧ hasNonWS (jsTrim t) = true ∧ jsTrim t ≠ "" ∧ (jsTrim t).length ≤ 500 := by
  by_cases h1 : t = ""
  · subst h1; simp [TodoService.validateTodoTitle] at h
  · have hb : (t == "") = false := by simpa using h1
    simp only [TodoService.validateTodoTitle, hb, Bool.false_eq_true, if_false] at h
    by_cases h2 : (jsTrim t).length = 0
    · simp [h2] at h
    · have hb2 : ((jsTrim t).length == 0) = false := by simpa using h2
      simp only [hb2, Bool.false_eq_true, if_false] at h
      by_cases h3 : 500 < (jsTrim t).length
      · simp [h3] at h
      · have hne : jsTrim t ≠ "" := by
          intro he
          exact h2 (by rw [he]; rfl)
        exact ⟨h1, hasNonWS_jsTrim_of_ne hne, hne, by omega⟩

theorem titleInv_service_update {s : List Todo} {id : String} {u : TodoUpdate}
    (hs : TitleInv s)
    (ht : ∀ v, u.title = some v → v ≠ "" → hasNonWS (jsTrim v) = true) :
    TitleInv (TodoService.updateTodo s id u) := by
  intro t htm
  obtain ⟨t0, ht0, hft⟩ := List.mem_map.mp htm
  by_cases hmatch : jsEqStr t0.id id = true
  · rw [if_pos hmatch] at hft
    cases hu : u.title with
    | none =>
      obtain ⟨str, hstr, hnw⟩ := hs t0 ht0
      rw [hu] at hft
      exact ⟨str, by rw [← hft]; exact hstr, hnw⟩
    | some v =>
      rw [hu] at hft
      by_cases hv : v = ""
      · obtain ⟨str, hstr, hnw⟩ := hs t0 ht0
        subst hv
        simp only [ne_eq, not_true_eq_false, if_false] at hft
        exact ⟨str, by rw [← hft]; exact hstr, hnw⟩
      · refine ⟨jsTrim v, ?_, ht v hu hv⟩
        rw [← hft]
        simp [hv]
  · rw [if_neg hmatch] at hft
    exact hft ▸ hs t0 ht0

theorem titleInv_of_reachable : ∀ {s : List Todo}, Reachable s → TitleInv s := by
  intro s h
  induction h with
  | empty => intro t ht; exact absurd ht (List.not_mem_nil t)
  | add s title newId now _ ih =>
    intro t ht
    unfold UseTodos.addTodo at ht
    by_cases hv : (TodoService.validateTodoTitle title).isValid = true
    · rw [if_pos hv] at ht
      rcases List.mem_append.mp ht with h1 | h2
      · exact ih t h1
      · rw [List.mem_singleton.mp h2]
        exact ⟨jsTrim title, rfl, (valid_title_props hv).2.1⟩
    · rw [if_neg hv] at ht
      exact ih t ht
  | update s id u _ ih =>
    intro t ht
    unfold UseTodos.updateTodo at ht
    split at ht
    next v hu =>
      by_cases hval : (TodoService.validateTodoTitle v).isValid = true
      · rw [if_pos hval] at ht
        refine titleInv_service_update ih ?_ t ht
        intro v2 hv2 _
        rw [hu] at hv2
        injection hv2 with hv2e
        exact hv2e ▸ (valid_title_props hval).2.1
      · rw [if_neg hval] at ht
        exact ih t ht
    next hu =>
      refine titleInv_service_update ih ?_ t ht
      intro v hv
      rw [hu] at hv
      cases hv
  | toggle s id _ ih =>
    intro t ht
    obtain ⟨t0, ht0, hft⟩ := List.mem_map.mp ht
    obtain ⟨str, hstr, hnw⟩ := ih t0 ht0
    refine ⟨str, ?_, hnw⟩
    rw [← hft]
    by_cases hmatch : jsEqStr t0.id id = true
    · rw [if_pos hmatch]; exact hstr
    · rw [if_neg hmatch]; exact hstr
  | delete s id _ ih =>
    intro t ht
    exact ih t (List.mem_filter.mp ht).1
  | clearAll s _ _ =>
    intro t ht
    exact absurd ht (List.not_mem_nil t)
  | clearCompleted s _ ih =>
    intro t ht
    exact ih t (List.mem_filter.mp ht).1

/-- C4: in every state reachable from the empty collection through the
public mutation operations (add, edit-save, toggle, delete, clear-all,
clear-completed), every item's title is a string that is non-empty and not
whitespace-only (its trim is non-empty). -/
theorem title_invariant_reachable (s : List Todo) (h : Reachable s) :
    ∀ t ∈ s, ∃ str, t.title = .str str ∧ str ≠ "" ∧ jsTrim str ≠ "" := by
  intro t ht
  obtain ⟨str, hstr, hnw⟩ := titleInv_of_reachable h t ht
  refine ⟨str, hstr, ?_, jsTrim_ne_of_hasNonWS hnw⟩
  intro he
  rw [he] at hnw
  simp [hasNonWS] at hnw

/-- Witness for C4 at the state reached by one `addTodo` on the empty
collection. -/
theorem title_invariant_reachable_witness :
    ∃ str, (TodoService.createTodo "hi" "u1" 0).title = .str str ∧
      str ≠ "" ∧ jsTrim str ≠ "" := by
  refine title_invariant_reachable _ (Reachable.add [] "hi" "u1" 0 Reachable.empty)
    (TodoService.createTodo "hi" "u1" 0) ?_
  rw [show UseTodos.addTodo [] "hi" "u1" 0 = [TodoService.createTodo "hi" "u1" 0] from rfl]
  exact List.mem_singleton_self _

theorem toggle_toggle (s : List Todo) (i : String) :
    TodoService.toggleComplete (TodoService.toggleComplete s i) i = s := by
  unfold TodoService.toggleComplete
  induction s with
  | nil => rfl
  | cons t ts ih =>
    simp only [List.map_cons, List.cons.injEq]
    refine ⟨?_, ih⟩
    by_cases hmatch : jsEqStr t.id i = true
    · rw [if_pos hmatch]
      rw [if_pos (show jsEqStr t.id i = true from hmatch)]
      cases t
      simp
    · rw [if_neg hmatch, if_neg hmatch]

/-- C6: toggling an id present in the collection twice returns a
collection equal to the original: the completed flag is flipped back and
every other field of every item is unchanged. -/
theorem toggle_involution (s : List Todo) (i : String)
    (h : ∃ t ∈ s, jsEqStr t.id i = true) :
    TodoService.toggleComplete (TodoService.toggleComplete s i) i = s :=
  toggle_toggle s i

/-- Witness for C6 on a one-element collection containing the toggled id. -/
theorem toggle_involution_witness :
    TodoService.toggleComplete
      (TodoService.toggleComplete [⟨.str "1", .str "a", false, some 0⟩] "1") "1" =
      [⟨.str "1", .str "a", false, some 0⟩] :=
  toggle_involution _ "1" ⟨⟨.str "1", .str "a", false, some 0⟩, List.mem_singleton_self _, rfl⟩

/-- C7: when no item of the collection has the given id, update (with any
field record), delete and toggle each return the collection unchanged. -/
theorem noop_on_absent_id (s : List Todo) (i : String) (u : TodoUpdate)
    (h : ∀ t ∈ s, jsEqStr t.id i = false) :
    TodoService.updateTodo s i u = s ∧ TodoService.deleteTodo s i = s ∧
      TodoService.toggleComplete s i = s := by
  refine ⟨?_, ?_, ?_⟩
  · unfold TodoService.updateTodo
    induction s with
    | nil => rfl
    | cons t ts ih =>
      simp only [List.map_cons, List.cons.injEq]
      constructor
      · rw [if_neg (by simp [h t (List.mem_cons_self t ts)])]
      · exact ih (fun t2 ht2 => h t2 (List.mem_cons_of_mem t ht2))
  · unfold TodoService.deleteTodo
    induction s with
    | nil => rfl
    | cons t ts ih =>
      rw [List.filter_cons_of_pos (by simp [h t (List.mem_cons_self t ts)])]
      rw [ih (fun t2 ht2 => h t2 (List.mem_cons_of_mem t ht2))]
  · unfold TodoService.toggleComplete
    induction s with
    | nil => rfl
    | cons t ts ih =>
      simp only [List.map_cons, List.cons.injEq]
      constructor
      · rw [if_neg (by simp [h t (List.mem_cons_self t ts)])]
      · exact ih (fun t2 ht2 => h t2 (List.mem_cons_of_mem t ht2))

/-- Witness for C7: the id "2" is absent from a one-element collection. -/
theorem noop_on_absent_id_witness :
    TodoService.updateTodo [⟨.str "1", .str "a", false, some 0⟩] "2" ⟨some "b", some true⟩ =
        [⟨.str "1", .str "a", false, some 0⟩] ∧
      TodoService.deleteTodo [⟨.str "1", .str "a", false, some 0⟩] "2" =
        [⟨.str "1", .str "a", false, some 0⟩] ∧
      TodoService.toggleComplete [⟨.str "1", .str "a", false, some 0⟩] "2" =
        [⟨.str "1", .str "a", false, some 0⟩] :=
  noop_on_absent_id _ "2" ⟨some "b", some true⟩
    (fun t ht => by rw [List.mem_singleton.mp ht]; rfl)

/-- Counterexample to C5 as stated: providing `title := ""` does not store
the trimmed empty title — the empty string is falsy in the guard
`updates.title ? updates.title.trim() : todo.title`, so the existing
title `"a"` is kept, and `"a"` differs from the trimmed provided `""`. -/
theorem update_empty_title_counterexample :
    TodoService.updateTodo [⟨.str "1", .str "a", false, some 0⟩] "1" ⟨some "", none⟩ =
      [⟨.str "1", .str "a", false, some 0⟩] ∧
    (JValue.str "a") ≠ (JValue.str "") := by
  constructor
  · rfl
  · intro h
    injection h with h2
    exact absurd h2 (by decide)

/-- C5 amended: `update` replaces every item matching the id by the merge
that keeps `id` and `createdAt`, overrides `completed` when provided, and
sets `title` to the trimmed provided title when the provided title is a
non-empty string — while a provided empty-string title leaves the
existing title in place; all other items are unchanged. -/
theorem update_merge_semantics (s : List Todo) (id : String) (u : TodoUpdate) (k : Nat) :
    (TodoService.updateTodo s id u)[k]? =
      (s[k]?).map (fun t =>
        if jsEqStr t.id id then
          { id := t.id
            createdAt := t.createdAt
            completed := u.completed.getD t.completed
            title :=
              match u.title with
              | some v => if v ≠ "" then .str (jsTrim v) else t.title
              | none => t.title }
        else t) := by
  unfold TodoService.updateTodo
  rw [List.getElem?_map]

/-- C9: update and toggle change every position whose item matches the
id (never just the first match), and delete removes exactly the items
matching the id, keeping the others in order. -/
theorem duplicate_id_all_matches (s : List Todo) (i : String) (u : TodoUpdate) :
    (∀ (k : Nat) (t : Todo), s[k]? = some t → jsEqStr t.id i = true →
        (TodoService.toggleComplete s i)[k]? = some { t with completed := !t.completed } ∧
        (TodoService.updateTodo s i u)[k]? =
          some { t with
                 completed := u.completed.getD t.completed
                 title :=
                   match u.title with
                   | some v => if v ≠ "" then .str (jsTrim v) else t.title
                   | none => t.title }) ∧
      (∀ t ∈ TodoService.deleteTodo s i, jsEqStr t.id i = false) ∧
      List.Sublist (TodoService.deleteTodo s i) s ∧
      (TodoService.deleteTodo s i).length = s.countP (fun t => !jsEqStr t.id i) := by
  refine ⟨?_, ?_, ?_, ?_⟩
  · intro k t hk hm
    constructor
    · unfold TodoService.toggleComplete
      rw [List.getElem?_map, hk, Option.map_some']
      rw [if_pos hm]
    · unfold TodoService.updateTodo
      rw [List.getElem?_map, hk, Option.map_some']
      rw [if_pos hm]
  · intro t ht
    have h2 := (List.mem_filter.mp ht).2
    simpa using h2
  · exact List.filter_sublist s
  · rw [List.countP_eq_length_filter]
    rfl

/-- Witness for C9 on a collection with two items sharing the id "1":
the second matching position is toggled too, and delete removes both. -/
theorem duplicate_id_all_matches_witness :
    (TodoService.toggleComplete
        [⟨.str "1", .str "a", false, some 0⟩, ⟨.str "1", .str "b", true, some 5⟩] "1")[1]? =
      some ⟨.str "1", .str "b", false, some 5⟩ ∧
    (TodoService.deleteTodo
        [⟨.str "1", .str "a", false, some 0⟩, ⟨.str "1", .str "b", true, some 5⟩] "1").length =
      List.countP (fun (t : Todo) => !jsEqStr t.id "1")
        ([⟨.str "1", .str "a", false, some 0⟩, ⟨.str "1", .str "b", true, some 5⟩] : List Todo) :=
  ⟨((duplicate_id_all_matches
      [⟨.str "1", .str "a", false, some 0⟩, ⟨.str "1", .str "b", true, some 5⟩] "1"
      ⟨none, none⟩).1 1 ⟨.str "1", .str "b", true, some 5⟩ rfl rfl).1,
    (duplicate_id_all_matches
      [⟨.str "1", .str "a", false, some 0⟩, ⟨.str "1", .str "b", true, some 5⟩] "1"
      ⟨none, none⟩).2.2.2⟩

theorem todoLe_trans (a b c : Todo) :
    TodoList.todoLe a b → TodoList.todoLe b c → TodoList.todoLe a c := by
  unfold TodoList.todoLe TodoList.todoCompare
  rcases a with ⟨ia, tia, ca, da⟩
  rcases b with ⟨ib, tib, cb, db⟩
  rcases c with ⟨ic, tic, cc, dc⟩
  simp only
  cases ca <;> cases cb <;> cases cc <;> simp_all <;> omega

theorem todoLe_total (a b : Todo) :
    TodoList.todoLe a b || TodoList.todoLe b a := by
  unfold TodoList.todoLe TodoList.todoCompare
  rcases a with ⟨ia, tia, ca, da⟩
  rcases b with ⟨ib, tib, cb, db⟩
  simp only
  cases ca <;> cases cb <;> simp_all <;> omega

theorem todoLe_completed {a b : Todo} (h : TodoList.todoLe a b = true) :
    a.completed = true → b.completed = true := by
  intro hc
  by_contra hb
  have hbf : b.completed = false := Bool.not_eq_true _ ▸ eq_false_of_ne_true hb
  unfold TodoList.todoLe TodoList.todoCompare at h
  rw [hc, hbf] at h
  simp at h

theorem todoLe_createdAt {a b : Todo} (h : TodoList.todoLe a b = true)
    (hc : a.completed = b.completed) :
    b.createdAt.getD 0 ≤ a.createdAt.getD 0 := by
  unfold TodoList.todoLe TodoList.todoCompare at h
  rw [hc] at h
  simp at h
  omega

/-- C8: the presentation ordering of the `TodoList` component is a stable
sort in which every active (`completed = false`) item precedes every
completed item, items of equal completion status are ordered by higher
`createdAt` first (stated for collections of valid dates; `getTime()` of
an Invalid Date is `NaN`, for which the comparator is unspecified),
sorting an already presented collection returns it unchanged, and the
result is a permutation of the unmodified input collection. -/
theorem presentation_order (s : List Todo) :
    ((TodoList.sortedTodos s).Pairwise fun a b =>
        a.completed = true → b.completed = true) ∧
    ((∀ t ∈ s, t.createdAt ≠ none) →
      (TodoList.sortedTodos s).Pairwise fun a b =>
        a.completed = b.completed → b.createdAt.getD 0 ≤ a.createdAt.getD 0) ∧
    TodoList.sortedTodos (TodoList.sortedTodos s) = TodoList.sortedTodos s ∧
    List.Perm (TodoList.sortedTodos s) s := by
  have hp : (TodoList.sortedTodos s).Pairwise (fun a b => TodoList.todoLe a b) :=
    List.sorted_mergeSort todoLe_trans todoLe_total s
  refine ⟨?_, ?_, ?_, ?_⟩
  · exact hp.imp (fun hab => todoLe_completed hab)
  · intro _
    exact hp.imp (fun hab hc => todoLe_createdAt hab hc)
  · exact List.mergeSort_of_sorted hp
  · exact List.mergeSort_perm s TodoList.todoLe

/-- Witness for C8: the newest-first ordering within equal completion
status, on a concrete two-element collection with valid dates. -/
theorem presentation_order_witness :
    (TodoList.sortedTodos
        [⟨.str "1", .str "a", true, some 0⟩, ⟨.str "2", .str "b", false, some 5⟩]).Pairwise
      (fun a b => a.completed = b.completed → b.createdAt.getD 0 ≤ a.createdAt.getD 0) :=
  (presentation_order
      [⟨.str "1", .str "a", true, some 0⟩, ⟨.str "2", .str "b", false, some 5⟩]).2.1
    (by
      intro t ht
      rcases List.mem_cons.mp ht with rfl | ht2
      · simp
      · rw [List.mem_singleton.mp ht2]
        simp)

theorem parse_serialize (t : Todo) (h : WellFormedTodo t) (now : Int) :
    TodoService.parseTodoElem (TodoService.serializeTodo t) now = some t := by
  obtain ⟨⟨i, hid, hine⟩, ⟨ti, hti, htne, _⟩, ⟨ms, hms⟩⟩ := h
  have htine : ti ≠ "" := by
    intro he
    exact htne (by rw [he]; rfl)
  unfold TodoService.serializeTodo
  rw [hid, hti, hms]
  have hred : TodoService.parseTodoElem
      (.obj [("id", .str i), ("title", .str ti), ("completed", .bool t.completed),
        ("createdAt", TodoService.serializeDate (some ms))]) now =
      if (i != "") && (ti != "") then
        some ⟨.str i, .str ti, t.completed, some ms⟩
      else none := rfl
  rw [hred, if_pos (by simp [hine, htine])]
  rw [← hid, ← hti, ← hms]

theorem load_save_aux :
    ∀ (s : List Todo), (∀ t ∈ s, WellFormedTodo t) → ∀ now : Int,
      (s.map TodoService.serializeTodo).filterMap
        (fun e => TodoService.parseTodoElem e now) = s
  | [], _, _ => rfl
  | t :: ts, h, now => by
    simp only [List.map_cons, List.filterMap_cons,
      parse_serialize t (h t (List.mem_cons_self t ts)) now]
    rw [load_save_aux ts (fun t2 ht2 => h t2 (List.mem_cons_of_mem t ht2)) now]

/-- C1: for a well-formed collection (non-empty id, non-empty trimmed
title of at most 500 characters, boolean completed, valid createdAt
date), loading the value written by save returns the collection exactly.
A JavaScript `Date` carries an integer millisecond timestamp and
ISO-8601 serialization preserves it, so the round trip is exact — in
particular equal up to sub-millisecond precision. -/
theorem load_save_round_trip (s : List Todo) (h : ∀ t ∈ s, WellFormedTodo t)
    (now : Int) :
    TodoService.loadTodos (some (TodoService.serializeTodos s)) now = s :=
  load_save_aux s h now

/-- Witness for C1 on a concrete one-element well-formed collection. -/
theorem load_save_round_trip_witness :
    TodoService.loadTodos
        (some (TodoService.serializeTodos [⟨.str "1", .str "a", false, some 42⟩])) 7 =
      [⟨.str "1", .str "a", false, some 42⟩] :=
  load_save_round_trip _ (fun t ht => by
    rw [List.mem_singleton.mp ht]
    exact ⟨⟨"1", rfl, by decide⟩, ⟨"a", rfl, by decide, by decide⟩, ⟨42, rfl⟩⟩) 7

/-- C10: an array element whose id and title are strings and whose
completed is a boolean is nevertheless dropped by load whenever its
id or its title is the empty string (the empty string is falsy, so the
element fails the `!todoObj.id || !todoObj.title` check). -/
theorem load_drops_empty_string_fields (fields : List (String × JValue))
    (i ti : String) (c : Bool) (now : Int) (es : List JValue)
    (hid : TodoService.lookupField fields "id" = some (.str i))
    (hti : TodoService.lookupField fields "title" = some (.str ti))
    (hc : TodoService.lookupField fields "completed" = some (.bool c))
    (hempty : i = "" ∨ ti = "") :
    TodoService.parseTodoElem (.obj fields) now = none ∧
    TodoService.loadTodos (some (.arr (JValue.obj fields :: es))) now =
      TodoService.loadTodos (some (.arr es)) now := by
  have hnone : TodoService.parseTodoElem (.obj fields) now = none := by
    simp only [TodoService.parseTodoElem]
    rw [hid, hti, hc]
    rcases hempty with rfl | rfl
    · simp [jsTruthy]
    · simp [jsTruthy]
  refine ⟨hnone, ?_⟩
  simp only [TodoService.loadTodos, List.filterMap_cons, hnone]

/-- Witness for C10: an element with empty-string id, string title and
boolean completed is dropped. -/
theorem load_drops_empty_string_fields_witness :
    TodoService.parseTodoElem
        (.obj [("id", .str ""), ("title", .str "x"), ("completed", .bool true)]) 0 = none ∧
    TodoService.loadTodos
        (some (.arr [.obj [("id", .str ""), ("title", .str "x"), ("completed", .bool true)]])) 0 =
      TodoService.loadTodos (some (.arr [])) 0 :=
  load_drops_empty_string_fields _ "" "x" true 0 [] rfl rfl rfl (Or.inl rfl)

/-- Counterexample to C2 as stated: (1) an element whose `id` is the
number `1` — a wrong primitive type, but truthy — is kept, not dropped
(only `completed` is type-checked; `id` and `title` are only checked for
truthiness); (2) a type-correct element whose `createdAt` is the
unparseable string "not-a-date" is kept with an Invalid Date
(`new Date("not-a-date")`), not with the current time `0`. -/
theorem load_tolerance_counterexample :
    TodoService.loadTodos
        (some (.arr [.obj [("id", .num 1), ("title", .str "x"), ("completed", .bool false)]]))
        0 =
      [⟨.num 1, .str "x", false, some 0⟩] ∧
    TodoService.loadTodos
        (some (.arr [.obj [("id", .str "1"), ("title", .str "x"), ("completed", .bool false),
          ("createdAt", .str "not-a-date")]])) 0 =
      [⟨.str "1", .str "x", false, none⟩] :=
  ⟨rfl, rfl⟩

/-- C2 amended: load never fails the caller — a missing slot or a
non-array value yields the empty collection, and an array is filtered
per element: an element that is not an object, is missing `id`, `title`
or `completed`, has a falsy `id` or `title`, or has a non-boolean
`completed` is dropped individually, while every other element is kept
with its raw `id` and `title` values (even when these are not strings);
a kept element's `createdAt` becomes the current time when the stored
`createdAt` is absent or falsy, the encoded timestamp when it is an
ISO-8601 timestamp string, and an Invalid Date when it is a non-empty
non-timestamp string. -/
theorem load_tolerance (now : Int) :
    TodoService.loadTodos none now = [] ∧
    (∀ v : JValue, v.isArr = false → TodoService.loadTodos (some v) now = []) ∧
    (∀ es : List JValue, TodoService.loadTodos (some (.arr es)) now =
      es.filterMap (fun e => TodoService.parseTodoElem e now)) ∧
    (∀ (fields : List (String × JValue)) (idv titlev : JValue) (c : Bool),
      TodoService.lookupField fields "id" = some idv →
      TodoService.lookupField fields "title" = some titlev →
      TodoService.lookupField fields "completed" = some (.bool c) →
      jsTruthy idv = true → jsTruthy titlev = true →
      (TodoService.lookupField fields "createdAt" = none →
        TodoService.parseTodoElem (.obj fields) now = some ⟨idv, titlev, c, some now⟩) ∧
      (∀ d : JValue, TodoService.lookupField fields "createdAt" = some d →
        jsTruthy d = false →
        TodoService.parseTodoElem (.obj fields) now = some ⟨idv, titlev, c, some now⟩) ∧
      (∀ ms : Int, TodoService.lookupField fields "createdAt" = some (.date ms) →
        TodoService.parseTodoElem (.obj fields) now = some ⟨idv, titlev, c, some ms⟩) ∧
      (∀ s2 : String, s2 ≠ "" →
        TodoService.lookupField fields "createdAt" = some (.str s2) →
        TodoService.parseTodoElem (.obj fields) now = some ⟨idv, titlev, c, none⟩)) ∧
    (∀ fields : List (String × JValue),
      (TodoService.lookupField fields "id" = none ∨
        TodoService.lookupField fields "title" = none ∨
        TodoService.lookupField fields "completed" = none) →
      TodoService.parseTodoElem (.obj fields) now = none) ∧
    (∀ (fields : List (String × JValue)) (idv titlev cv : JValue),
      TodoService.lookupField fields "id" = some idv →
      TodoService.lookupField fields "title" = some titlev →
      TodoService.lookupField fields "completed" = some cv →
      (jsTruthy idv = false ∨ jsTruthy titlev = false ∨ (∀ b : Bool, cv ≠ .bool b)) →
      TodoService.parseTodoElem (.obj fields) now = none) := by
  refine ⟨rfl, ?_, ?_, ?_, ?_, ?_⟩
  · intro v hv
    cases v <;> simp [TodoService.loadTodos] <;> cases hv
  · intro es
    rfl
  · intro fields idv titlev c hid hti hc htid htit
    refine ⟨?_, ?_, ?_, ?_⟩
    · intro hca
      simp only [TodoService.parseTodoElem]
      rw [hid, hti, hc]
      simp [htid, htit, hca, show jsTruthy JValue.null = false from rfl]
    · intro d hca hdf
      simp only [TodoService.parseTodoElem]
      rw [hid, hti, hc]
      simp [htid, htit, hca, hdf]
    · intro ms hca
      simp only [TodoService.parseTodoElem]
      rw [hid, hti, hc]
      simp [htid, htit, hca, show jsTruthy (JValue.date ms) = true from rfl,
        show TodoService.jsNewDate (JValue.date ms) = some ms from rfl]
    · intro s2 hs2 hca
      simp only [TodoService.parseTodoElem]
      rw [hid, hti, hc]
      simp [htid, htit, hca, show jsTruthy (JValue.str s2) = true by simp [jsTruthy, hs2],
        show TodoService.jsNewDate (JValue.str s2) = none from rfl]
  · intro fields hmiss
    simp only [TodoService.parseTodoElem]
    rcases hmiss with hm | hm | hm
    · rw [hm]
    · rw [hm]
      cases TodoService.lookupField fields "id" <;> rfl
    · rw [hm]
      cases TodoService.lookupField fields "id" <;>
        cases TodoService.lookupField fields "title" <;> rfl
  · intro fields idv titlev cv hid hti hc hbad
    simp only [TodoService.parseTodoElem]
    rw [hid, hti, hc]
    rcases hbad with hb | hb | hb
    · simp [hb]
    · simp [hb]
    · cases cv with
      | bool b => exact absurd rfl (hb b)
      | null => simp [ite_self]
      | num n => simp [ite_self]
      | str s2 => simp [ite_self]
      | date ms => simp [ite_self]
      | arr l => simp [ite_self]
      | obj l => simp [ite_self]

/-- Witness for C2 (amended): a kept element with raw values and a
missing `createdAt` receives the current time, and an element missing
`completed` is dropped. -/
theorem load_tolerance_witness :
    TodoService.parseTodoElem
        (.obj [("id", .str "1"), ("title", .str "x"), ("completed", .bool true)]) 9 =
      some ⟨.str "1", .str "x", true, some 9⟩ ∧
    TodoService.parseTodoElem (.obj [("id", .str "1"), ("title", .str "x")]) 9 = none :=
  ⟨((load_tolerance 9).2.2.2.1
      [("id", .str "1"), ("title", .str "x"), ("completed", .bool true)]
      (.str "1") (.str "x") true rfl rfl rfl rfl rfl).1 rfl,
    (load_tolerance 9).2.2.2.2.1 [("id", .str "1"), ("title", .str "x")]
      (Or.inr (Or.inr rfl))⟩

theorem string_data_append (a b : String) : (a ++ b).data = a.data ++ b.data := rfl

/-- Counterexample to C3 as stated: when no backing store is reachable,
`TodoService.saveTodos` does not fail — it logs a warning and returns
normally, so the caller observes success, not a `StorageUnavailable`
failure. -/
theorem save_unavailable_counterexample :
    TodoService.saveTodos false TodoService.WriteOutcome.ok [] = Except.ok () := rfl

/-- C3 amended: `TodoService.saveTodos` returns without error (warning
only) when no backing store is reachable; the hook-level `setValue` is
what surfaces storage unavailability, as a dedicated error message while
still applying the in-memory update.  A write rejected for size reasons
fails with the quota message, distinct from the generic failure message,
at both levels.  In every failure case the in-memory state update has
already happened and is not rolled back. -/
theorem save_error_contract :
    (∀ (w : TodoService.WriteOutcome) (s : List Todo),
      TodoService.saveTodos false w s = .ok ()) ∧
    (∀ s : List Todo,
      TodoService.saveTodos true .quotaExceeded s = .error TodoService.quotaMessage) ∧
    (∀ (s : List Todo) (msg : String),
      TodoService.saveTodos true (.otherError msg) s =
        .error TodoService.genericSaveMessage) ∧
    TodoService.quotaMessage ≠ TodoService.genericSaveMessage ∧
    (∀ (w : TodoService.WriteOutcome) (v : List Todo),
      (UseLocalStorage.setValue false w v).newState = v ∧
      (UseLocalStorage.setValue false w v).error =
        some UseLocalStorage.unavailableMessage) ∧
    (∀ v : List Todo,
      (UseLocalStorage.setValue true TodoService.WriteOutcome.quotaExceeded v).newState = v ∧
      (UseLocalStorage.setValue true TodoService.WriteOutcome.quotaExceeded v).error =
        some TodoService.quotaMessage) ∧
    (∀ msg : String,
      TodoService.quotaMessage ≠ UseLocalStorage.setValueGenericMessage msg) := by
  refine ⟨fun w s => rfl, fun s => rfl, fun s msg => rfl, by decide,
    fun w v => ⟨rfl, rfl⟩, fun v => ⟨rfl, rfl⟩, ?_⟩
  intro msg h
  have h2 := congrArg (fun s : String => s.data.head?) h
  simp only [UseLocalStorage.setValueGenericMessage, string_data_append] at h2
  rw [show TodoService.quotaMessage.data = 'ス' :: TodoService.quotaMessage.data.tail
    from rfl] at h2
  simp at h2

/-- Witness for C3 (amended) at concrete states: an unreachable store
still reports success from `saveTodos`, and a quota failure in `setValue`
keeps the new in-memory state while surfacing the quota message. -/
theorem save_error_contract_witness :
    TodoService.saveTodos false TodoService.WriteOutcome.quotaExceeded
        [⟨.str "1", .str "a", false, some 0⟩] = .ok () ∧
    (UseLocalStorage.setValue true TodoService.WriteOutcome.quotaExceeded
        ([⟨.str "1", .str "a", false, some 0⟩] : List Todo)).newState =
      [⟨.str "1", .str "a", false, some 0⟩] ∧
    (UseLocalStorage.setValue true TodoService.WriteOutcome.quotaExceeded
        ([⟨.str "1", .str "a", false, some 0⟩] : List Todo)).error =
      some TodoService.quotaMessage :=
  ⟨save_error_contract.1 TodoService.WriteOutcome.quotaExceeded _,
    (save_error_contract.2.2.2.2.2.1 [⟨.str "1", .str "a", false, some 0⟩]).1,
    (save_error_contract.2.2.2.2.2.1 [⟨.str "1", .str "a", false, some 0⟩]).2⟩

end TodoApp
